import Mathlib

/-!
Verification of the TwitchBot repository against its specification.

Shallow embedding of the relevant Python source:
  - `src/twitch_bot/client.py`          (moderator roster and check)
  - `src/twitch_bot/commands/pyramid.py` (pyramid command)
  - `src/twitch_bot/events/follows.py`   (follower polling)
  - `src/twitchbot/http.py`              (webhook server, token session, rate bucket)

Machine values are modelled with Nat/Int, fallible operations with Option,
and time as integer seconds passed explicitly.
-/

namespace TwitchBot

/-! ## C1: moderator check (`client.py`, `IRCClient._is_mod` / `_fill_mod_list`) -/

/-- Python runtime values occurring in the moderator-list membership test:
strings and lists of strings.  Equality between a string and a list is always
false in Python, which the derived equality mirrors (distinct constructors). -/
inductive PyVal where
  | vstr : String → PyVal
  | vlist : List String → PyVal
deriving DecidableEq

/-- The `dict.values()` view of the moderator roster `self._mod_list`
(`client.py` line 89: a dict mapping rank name to the list of usernames). -/
def modListValues (mod_list : List (String × List String)) : List PyVal :=
  mod_list.map (fun rank => PyVal.vlist rank.2)

/-- Embedding of `IRCClient._is_mod` (`client.py` lines 75-80):
`return username in itertools.chain(self._mod_list.values())`.
`itertools.chain` is called with the values view as its single iterable, so it
yields each rank list itself (not the usernames inside), and the membership
test compares the username with each rank list. -/
def IRCClient_is_mod (mod_list : List (String × List String)) (username : String) : Bool :=
  (modListValues mod_list).contains (PyVal.vstr username)

/-- Modelled from the spec: "a username is a moderator iff it appears in any
rank list of the current roster" (spec section 4.8, moderator check). -/
def spec_is_mod (mod_list : List (String × List String)) (username : String) : Bool :=
  mod_list.any (fun rank => rank.2.contains username)

/-! ## C2: pyramid command (`commands/pyramid.py`, class `Pyramid`) -/

/-- Python `str.isdigit()` restricted to ASCII decimal digits: true iff the
string is non-empty and every character is a digit. -/
def pyIsdigit (s : String) : Bool :=
  !s.isEmpty && s.toList.all Char.isDigit

/-- Python `int(s)` on an all-digit string: decimal value (48 is the code of
the digit zero). -/
def pyInt (s : String) : Nat :=
  s.toList.foldl (fun n c => 10 * n + (c.toNat - 48)) 0

/-- `Pyramid.MAX_SIZE` (`pyramid.py` line 13). -/
def Pyramid_MAX_SIZE : Nat := 5

/-- Embedding of `Pyramid._size_threshold` (`pyramid.py` lines 15-21):
`return int(size) if int(size) < Pyramid.MAX_SIZE else Pyramid.MAX_SIZE`,
taking the already-parsed integer. -/
def size_threshold (size : Nat) : Nat :=
  if size < Pyramid_MAX_SIZE then size else Pyramid_MAX_SIZE

/-- Argument resolution in `Pyramid.process` (`pyramid.py` lines 29-41):
starting from the configured defaults, zero arguments keep them; one all-digit
argument sets the (thresholded) size; one other argument sets the symbol; with
two arguments the first sets the symbol and the second, if all-digit, the
(thresholded) size.  Argument lists of three or more tokens fall through every
branch and keep the defaults. -/
def pyramid_resolve (defaultSymbol : String) (defaultSize : Nat) (args : List String) :
    String × Nat :=
  match args with
  | [] => (defaultSymbol, defaultSize)
  | [a] =>
      if pyIsdigit a then (defaultSymbol, size_threshold (pyInt a))
      else (a, defaultSize)
  | [a, b] =>
      (a, if pyIsdigit b then size_threshold (pyInt b) else defaultSize)
  | _ => (defaultSymbol, defaultSize)

/-- Rendering loop of `Pyramid.process` (`pyramid.py` lines 46-51):
`for i in range(2 * size - 1): block = [symbol] * (i + 1 if i < size else 2 * size - (i + 1));
" ".join(block)`. -/
def pyramid_rows (symbol : String) (size : Nat) : List String :=
  (List.range (2 * size - 1)).map (fun i =>
    String.intercalate " " (List.replicate (if i < size then i + 1 else 2 * size - (i + 1)) symbol))

/-- Embedding of `Pyramid.process` (`pyramid.py` lines 23-52). -/
def Pyramid_process (defaultSymbol : String) (defaultSize : Nat) (args : List String) :
    List String :=
  let sr := pyramid_resolve defaultSymbol defaultSize args
  pyramid_rows sr.1 sr.2

/-- Modelled from the spec: symbol and requested size per the claim's argument
rules (one all-digits argument is the size, one non-digit argument is the
symbol, with two arguments the first is the symbol and the second, if
all-digits, the size; defaults otherwise), before any clamping. -/
def claim_requested (defaultSymbol : String) (defaultSize : Nat) (args : List String) :
    String × Nat :=
  match args with
  | [] => (defaultSymbol, defaultSize)
  | [a] =>
      if pyIsdigit a then (defaultSymbol, pyInt a)
      else (a, defaultSize)
  | [a, b] =>
      (a, if pyIsdigit b then pyInt b else defaultSize)
  | _ => (defaultSymbol, defaultSize)

/-- Modelled from the spec: row `i` for `i` in `0..2*effSize-2` is the symbol
repeated `i+1` times when `i < effSize`, else `2*effSize-(i+1)` times, joined
by single spaces. -/
def claim_rows (symbol : String) (effSize : Nat) : List String :=
  (List.range (2 * effSize - 1)).map (fun i =>
    String.intercalate " " (List.replicate (if i < effSize then i + 1 else 2 * effSize - (i + 1)) symbol))

/-- Modelled from the spec: the full pyramid output the claim describes, with
`effective_size = min (requested size) 5`. -/
def claim_pyramid (defaultSymbol : String) (defaultSize : Nat) (args : List String) :
    List String :=
  let sr := claim_requested defaultSymbol defaultSize args
  claim_rows sr.1 (min sr.2 5)

/-! ## C3: follower polling (`events/follows.py`, `Follows.listen` /
`Follows._format_follower_list`) -/

/-- One entry of the fetched follower list (`follows.py` `_get_follows`):
display name and the follow timestamp.  The `iso8601.parse_date` result is
modelled as an integer timestamp, compared with the usual order. -/
structure Follow where
  name : String
  date : Int
deriving DecidableEq

/-- Embedding of `Follows._format_follower_list` (`follows.py` lines 18-24):
one name stands alone; otherwise all but the last are joined with commas and
the last is appended after " and ".  (Python raises on an empty list; the
function is only invoked on non-empty lists, and the empty case here returns
a harmless default.) -/
def format_follower_list (follower_list : List Follow) : String :=
  let names := follower_list.map Follow.name
  if names.length = 1 then names.headD ""
  else String.intercalate ", " names.dropLast ++ " and " ++ names.getLastD ""

/-- Embedding of one polling cycle of `Follows.listen` (`follows.py` lines
63-79), with the network fetch passed in as `fetched` (`none` models a fetch
that failed and returned nothing).  `tmpl` is the configured follow-message
template `cfg.FOLLOW_MESSAGE.format`, modelled from the spec as a function of
the formatted name string.  Returns the new cached follower list and the chat
announcement sent, if any. -/
def listen_cycle (tmpl : String → String) (init_date : Int) (cache : List Follow)
    (fetched : Option (List Follow)) : List Follow × Option String :=
  match fetched with
  | none => (cache, none)
  | some follows =>
      let new_follows := follows.filter (fun f => decide (init_date < f.date) && !(cache.contains f))
      if new_follows.isEmpty then (cache, none)
      else (follows, some ("/me " ++ tmpl (format_follower_list new_follows)))

/-- Modelled from the spec: `new_follows` is the set of fetched entries whose
follow timestamp is strictly after the bot-start time and that are not in the
cached follower list. -/
def claim_new_follows (init_date : Int) (cache : List Follow) (follows : List Follow) :
    List Follow :=
  follows.filter (fun f => decide (init_date < f.date ∧ ¬ f ∈ cache))

/-! ## C4, C5, C10: webhook POST handling (`twitchbot/http.py`,
`verify_payload`, `remove_duplicates`, `TwitchWebhookServer._handle_post`) -/

/-- An inbound webhook POST request: raw body bytes and the two headers the
cross-cutting checks read. -/
structure WebhookRequest where
  body : List Nat
  x_hub_signature : Option String
  twitch_notification_id : Option String

/-- Header preparation in `verify_payload` (`http.py` line 159):
`request.headers.get('X-Hub-Signature', '')[7:]` — the header value, defaulted
to the empty string, with its first 7 characters stripped. -/
def strip_signature (h : Option String) : String :=
  (h.getD "").drop 7

/-- Result of handling one POST: the HTTP status and whether the wrapped
notification route (and hence the configured callback) ran. -/
structure PostOutcome where
  status : Nat
  callbackRan : Bool
deriving DecidableEq

/-- `collections.deque(maxlen=50).append` (`http.py` line 209): append on the
right, evicting from the left when the deque already holds 50 entries. -/
def append_max50 (cache : List (Option String)) (x : Option String) : List (Option String) :=
  let l := cache ++ [x]
  l.drop (l.length - 50)

/-- Embedding of the `remove_duplicates` decorator (`http.py` lines 169-186)
around the notification route: if the `Twitch-Notification-ID` header value
(possibly absent, i.e. `none`) is in the dedup cache, answer 204 without
processing; otherwise run the route (callback, 202) and append the id. -/
def remove_duplicates_step (cache : List (Option String)) (nid : Option String) :
    PostOutcome × List (Option String) :=
  if cache.contains nid then
    ({ status := 204, callbackRan := false }, cache)
  else
    ({ status := 202, callbackRan := true }, append_max50 cache nid)

/-- Embedding of `_handle_post` with its decorators (`http.py` lines 151-166
and 282-288): `verify_payload` computes the HMAC-SHA256 hex digest of the raw
body under the configured secret (abstracted as `hmacHex`) and compares it
with the stripped `X-Hub-Signature` header; mismatch answers 403 without
processing, match falls through to duplicate suppression and the route. -/
def handle_post (hmacHex : List Nat → String) (cache : List (Option String))
    (req : WebhookRequest) : PostOutcome × List (Option String) :=
  if hmacHex req.body == strip_signature req.x_hub_signature then
    remove_duplicates_step cache req.twitch_notification_id
  else
    ({ status := 403, callbackRan := false }, cache)

/-- Sequential processing of a list of notification ids through the dedup
cache (each inbound POST runs `remove_duplicates_step` on the current cache). -/
def dedup_run (cache : List (Option String)) (ids : List (Option String)) :
    List (Option String) :=
  ids.foldl (fun c i => (remove_duplicates_step c i).2) cache

/-- Last `n` elements of a list (what a `maxlen=n` deque retains). -/
def lastN {α : Type} (n : Nat) (l : List α) : List α :=
  l.drop (l.length - n)

/-! ## C6: topic identity (`twitchbot/http.py`, `Topic.id`, `UserFollows`) -/

/-- Python `dict.get` on a string-keyed dict modelled as an association list. -/
def dict_get (d : List (String × String)) (k : String) : Option String :=
  (d.find? (fun kv => kv.1 == k)).map Prod.snd

/-- Embedding of `Topic.__init__` (`http.py` lines 352-353): the params dict
is the keyword arguments filtered to the topic's declared slot names. -/
def topic_mk_params (slots : List String) (kwargs : List (String × String)) :
    List (String × String) :=
  kwargs.filter (fun kv => slots.contains kv.1)

/-- Embedding of the `Topic.id` property (`http.py` lines 385-387):
`next((self.params.get(slot) for slot in self.__slots__ if self.params.get(slot) is not None), None)`
— the value of the first declared slot whose params entry is present, `none`
when every slot is absent. -/
def topic_id (slots : List String) (params : List (String × String)) : Option String :=
  match slots.find? (fun slot => (dict_get params slot).isSome) with
  | some slot => dict_get params slot
  | none => none

/-- Declared slot order of `UserFollows` (`http.py` line 399):
`__slots__ = ('from_id', 'to_id')`. -/
def UserFollows_slots : List String := ["from_id", "to_id"]

/-- Declared slot order of `StreamChanged` (`http.py` line 392):
`__slots__ = ('user_id',)`. -/
def StreamChanged_slots : List String := ["user_id"]

/-! ## C7: token session (`twitchbot/http.py`, `TokenSession.get_token`) -/

/-- Cached token state of `TokenSession` (`http.py` lines 112-114). -/
structure TokenState where
  token : Option String
  expires_at : Option Int
deriving DecidableEq

/-- Embedding of `TokenSession.get_token` (`http.py` lines 117-133).  `now` is
`datetime.utcnow()` in seconds; `freshToken` and `expires_in` are the
`access_token` and `expires_in` fields the token endpoint would return if a
request is issued.  Returns the new state, the token returned to the caller,
and whether a token request was issued.
`need_refresh = True if not self._expires_at else now > self._expires_at`. -/
def get_token (now : Int) (freshToken : String) (expires_in : Int) (st : TokenState) :
    TokenState × Option String × Bool :=
  let need_refresh :=
    match st.expires_at with
    | none => true
    | some e => decide (e < now)
  if need_refresh then
    ({ token := some freshToken, expires_at := some (now + expires_in) }, some freshToken, true)
  else
    (st, st.token, false)

/-! ## C8: webhook subscribe (`twitchbot/http.py`, `TwitchWebhookServer.subscribe`
and `_subscribe`) -/

/-- Removal of a key from the pending table (`dict.pop`). -/
def remove_key (pending : List String) (k : String) : List String :=
  pending.filter (fun u => !(u == k))

/-- Insertion of a key into the pending table (`dict[key] = Event()`). -/
def insert_key (pending : List String) (k : String) : List String :=
  if pending.contains k then pending else pending ++ [k]

/-- Whether the pending signal fires within the 10-second
`asyncio.wait_for(..., timeout=10.0)` window (`http.py` line 256); `arrival`
is the time in seconds after the wait began at which the matching challenge
GET sets the event, `none` if it never does. -/
def challenge_fired (arrival : Option Int) : Bool :=
  match arrival with
  | some t => decide (t ≤ 10)
  | none => false

/-- Embedding of `TwitchWebhookServer._subscribe` (`http.py` lines 248-262):
register the pending entry under the topic's URI, POST the hub request (a
network effect, not modelled), wait up to 10 seconds for the signal (success
iff it fires in time), then pop the pending entry regardless of the outcome.
Returns the success flag and the new pending table. -/
def subscribe_one (pending : List String) (uri : String) (arrival : Option Int) :
    Bool × List String :=
  let pending1 := insert_key pending uri
  let success := challenge_fired arrival
  (success, remove_key pending1 uri)

/-- Embedding of `TwitchWebhookServer.subscribe` (`http.py` lines 239-246)
over topics given as (URI, challenge arrival) pairs.  `results` are the values
`asyncio.gather` returns (which the code discards).  The warning test
`len(tasks) == len([task for task in tasks.values() if task])` filters the
dict values, which are the coroutine objects built on line 242 — objects are
always truthy, so the filtered list always has full length.  Returns the
per-topic results, the final pending table, and whether the failure warning
was logged. -/
def subscribe_all (pending : List String) (topics : List (String × Option Int)) :
    List Bool × List String × Bool :=
  let results := topics.map (fun t => (subscribe_one pending t.1 t.2).1)
  let pending2 := topics.foldl (fun p t => (subscribe_one p t.1 t.2).2) pending
  let truthy_count := (topics.map (fun _ => true)).count true
  let warning_logged := !(topics.length == truthy_count)
  (results, pending2, warning_logged)

/-! ## C9: rate bucket (`twitchbot/http.py`, class `RateBucket`) -/

/-- State of a `RateBucket` (`http.py` lines 28-31): current token count,
capacity per window, window length in seconds, and the window reset timestamp
(absent until lazily initialized). -/
structure RateBucketState where
  tokens : Int
  rate : Int
  per : Int
  reset_date : Option Int
deriving DecidableEq

/-- Sleep-and-refill part of `RateBucket._reset` (`http.py` lines 41-46),
before the recursive `consume`: wait until the reset date (times are integer
seconds, so the `math.ceil` of the difference is the difference itself), then
restore the tokens to `rate` and clear the reset date.  Returns the time after
the sleep, the refilled state, and the sleep durations performed. -/
def reset_refill (now : Int) (st : RateBucketState) : Int × RateBucketState × List Int :=
  let rd := st.reset_date.getD 0
  let wait := rd - now
  let now1 := if 0 < wait then now + wait else now
  let sleeps := if 0 < wait then [wait] else []
  (now1, { st with tokens := st.rate, reset_date := none }, sleeps)

/-- Embedding of `RateBucket.consume` (`http.py` lines 33-48), with explicit
fuel for the `_reset` → `consume` recursion.  First the reset date is lazily
initialized (`self._reset_date = self._reset_date or utcnow() + per`); if
tokens remain one is consumed with no sleep; otherwise `_reset` sleeps until
the reset date, refills, clears the reset date and consumes recursively.
Returns the time after any sleeps, the new state, and the sleeps performed. -/
def consume : Nat → Int → RateBucketState → Option (Int × RateBucketState × List Int)
  | 0, _, _ => none
  | Nat.succ fuel, now, st =>
      let st1 : RateBucketState := { st with reset_date := some (st.reset_date.getD (now + st.per)) }
      if 0 < st1.tokens then
        some (now, { st1 with tokens := st1.tokens - 1 }, [])
      else
        let r := reset_refill now st1
        match consume fuel r.1 r.2.1 with
        | none => none
        | some (now2, st2, sleeps2) => some (now2, st2, r.2.2 ++ sleeps2)

/-- Iterated `consume`: `n` successive calls, threading time and state and
concatenating the sleeps. -/
def consumeN : Nat → Nat → Int → RateBucketState → Option (Int × RateBucketState × List Int)
  | 0, _, now, st => some (now, st, [])
  | Nat.succ k, fuel, now, st =>
      match consume fuel now st with
      | none => none
      | some (now1, st1, s1) =>
          match consumeN k fuel now1 st1 with
          | none => none
          | some (now2, st2, s2) => some (now2, st2, s1 ++ s2)

/-- A freshly constructed `RateBucket(rate, per)` (`http.py` lines 27-31). -/
def fresh_bucket (rate per : Int) : RateBucketState :=
  { tokens := rate, rate := rate, per := per, reset_date := none }

/-! ## Helper lemmas -/

/-- A string value never equals a list value (Python `str == list` is false). -/
theorem pyval_vstr_beq_vlist (s : String) (l : List String) :
    (PyVal.vstr s == PyVal.vlist l) = false := by
  simp [beq_eq_false_iff_ne]

/-- The moderator check compares the username with each rank list, never with
the usernames inside, so it is false for every roster and every username. -/
theorem is_mod_always_false (mod_list : List (String × List String)) (u : String) :
    IRCClient_is_mod mod_list u = false := by
  induction mod_list with
  | nil => rfl
  | cons hd tl ih =>
      simp only [IRCClient_is_mod, modListValues, List.map_cons, List.contains_cons] at *
      rw [pyval_vstr_beq_vlist]
      simp only [Bool.false_or]
      exact ih

/-- `Pyramid._size_threshold` computes the minimum with 5. -/
theorem size_threshold_eq_min (n : Nat) : size_threshold n = min n 5 := by
  unfold size_threshold Pyramid_MAX_SIZE
  split <;> omega

/-- The source filter predicate of `Follows.listen` agrees with the
spec-modelled `new_follows` set. -/
theorem new_follows_filter_eq (t0 : Int) (c follows : List Follow) :
    follows.filter (fun f => decide (t0 < f.date) && !(c.contains f)) =
      claim_new_follows t0 c follows := by
  unfold claim_new_follows
  congr 1
  funext f
  by_cases h1 : t0 < f.date <;> by_cases h2 : f ∈ c <;> simp [h1, h2]

/-- Last-n of a list that is already at most n long is the list itself. -/
theorem lastN_of_le {α : Type} (n : Nat) (l : List α) (h : l.length ≤ n) : lastN n l = l := by
  unfold lastN
  rw [Nat.sub_eq_zero_of_le h, List.drop_zero]

/-- Last-n keeps at most n elements. -/
theorem lastN_length_le {α : Type} (n : Nat) (l : List α) : (lastN n l).length ≤ n := by
  unfold lastN
  simp
  omega

/-- Truncating the left part to its last n elements does not change the last n
elements of an extended list. -/
theorem lastN_append_left {α : Type} (n : Nat) (l r : List α) :
    lastN n (lastN n l ++ r) = lastN n (l ++ r) := by
  rcases Nat.le_total l.length n with h | h
  · rw [lastN_of_le n l h]
  · unfold lastN
    rw [List.length_append, List.length_append, List.length_drop]
    rw [List.drop_append_eq_append_drop, List.drop_append_eq_append_drop, List.drop_drop,
      List.length_drop]
    congr 2 <;> omega

/-- The deque append retains the appended element. -/
theorem mem_append_max50_self (cache : List (Option String)) (x : Option String) :
    x ∈ append_max50 cache x := by
  show x ∈ (cache ++ [x]).drop ((cache ++ [x]).length - 50)
  rw [List.drop_append_eq_append_drop]
  refine List.mem_append.mpr (Or.inr ?_)
  have h : (cache ++ [x]).length - 50 - cache.length = 0 := by
    simp only [List.length_append, List.length_cons, List.length_nil]
    omega
  rw [h]
  simp

/-- Processing a run of pairwise-distinct, not-yet-cached notification ids
leaves the dedup cache holding the last 50 of cache-then-ids. -/
theorem dedup_run_fresh (ids : List (Option String)) : ∀ (cache : List (Option String)),
    cache.length ≤ 50 → (∀ i ∈ ids, ¬ i ∈ cache) → ids.Nodup →
    dedup_run cache ids = lastN 50 (cache ++ ids) := by
  induction ids with
  | nil =>
      intro cache hlen _ _
      simp [dedup_run, lastN_of_le 50 cache hlen]
  | cons i rest ih =>
      intro cache hlen hfresh hnodup
      have hi : ¬ i ∈ cache := hfresh i (List.mem_cons_self _ _)
      have hrun : dedup_run cache (i :: rest) = dedup_run (append_max50 cache i) rest := by
        simp only [dedup_run, List.foldl_cons, remove_duplicates_step]
        rw [if_neg (by simp [hi])]
      rw [hrun]
      have hsub : append_max50 cache i ⊆ cache ++ [i] := List.drop_subset _ _
      have hlen2 : (append_max50 cache i).length ≤ 50 := lastN_length_le 50 (cache ++ [i])
      have hfresh2 : ∀ j ∈ rest, ¬ j ∈ append_max50 cache i := by
        intro j hj hmem
        rcases List.mem_append.mp (hsub hmem) with hc | hii
        · exact hfresh j (List.mem_cons_of_mem _ hj) hc
        · have hji : j = i := by simpa using hii
          exact (List.nodup_cons.mp hnodup).1 (hji ▸ hj)
      rw [ih (append_max50 cache i) hlen2 hfresh2 (List.nodup_cons.mp hnodup).2]
      rw [show append_max50 cache i = lastN 50 (cache ++ [i]) from rfl]
      rw [lastN_append_left]
      simp

/-- Closed form of one polling cycle with a successful fetch, in terms of the
spec-modelled `new_follows` set. -/
theorem listen_cycle_eq (tmpl : String → String) (t0 : Int) (cache follows : List Follow) :
    listen_cycle tmpl t0 cache (some follows) =
      if claim_new_follows t0 cache follows = [] then (cache, none)
      else (follows,
        some ("/me " ++ tmpl (format_follower_list (claim_new_follows t0 cache follows)))) := by
  simp only [listen_cycle, new_follows_filter_eq]
  by_cases h : claim_new_follows t0 cache follows = [] <;> simp [h]

/-- Popping a key from the pending table removes every entry for it. -/
theorem remove_key_contains_false (l : List String) (k : String) :
    (remove_key l k).contains k = false := by
  rw [← Bool.not_eq_true, List.contains_eq_any_beq, List.any_eq_true]
  rintro ⟨u, hu, hb⟩
  have hku : k = u := by simpa using hb
  subst hku
  have := (List.mem_filter.mp hu).2
  simp at this

/-- One-step unfolding of the fueled `consume`. -/
theorem consume_succ (fuel : Nat) (now : Int) (st : RateBucketState) :
    consume (fuel + 1) now st =
      (let st1 : RateBucketState :=
        { st with reset_date := some (st.reset_date.getD (now + st.per)) }
       if 0 < st1.tokens then
         some (now, { st1 with tokens := st1.tokens - 1 }, [])
       else
         let r := reset_refill now st1
         match consume fuel r.1 r.2.1 with
         | none => none
         | some (now2, st2, sleeps2) => some (now2, st2, r.2.2 ++ sleeps2)) := rfl

/-- With tokens remaining, `consume` decrements and returns immediately with
no sleep, lazily initializing the reset date. -/
theorem consume_pos (fuel : Nat) (now : Int) (st : RateBucketState) (h : 0 < st.tokens) :
    consume (fuel + 1) now st =
      some (now,
        { st with tokens := st.tokens - 1,
                  reset_date := some (st.reset_date.getD (now + st.per)) }, []) := by
  rw [consume_succ]
  exact if_pos h

/-- Sleep-and-refill: with a pending reset date in the future, `_reset` sleeps
exactly until it, restores the tokens to the capacity and clears the date. -/
theorem reset_refill_spec (now : Int) (st : RateBucketState) (rd : Int)
    (hrd : st.reset_date = some rd) (hlt : now < rd) :
    reset_refill now st =
      (rd, { st with tokens := st.rate, reset_date := none }, [rd - now]) := by
  unfold reset_refill
  rw [hrd]
  simp only [Option.getD_some]
  rw [if_pos (by omega), if_pos (by omega)]
  congr 1
  omega

/-- The token count stays non-negative through any successful `consume`. -/
theorem consume_tokens_nonneg : ∀ (fuel : Nat) (now : Int) (st : RateBucketState)
    (res : Int × RateBucketState × List Int),
    0 ≤ st.tokens → 0 ≤ st.rate → consume fuel now st = some res → 0 ≤ res.2.1.tokens := by
  intro fuel
  induction fuel with
  | zero =>
      intro now st res _ _ h
      simp [consume] at h
  | succ f ih =>
      intro now st res ht hr h
      rw [consume_succ] at h
      dsimp only at h
      by_cases hpos : 0 < st.tokens
      · rw [if_pos hpos] at h
        rw [← Option.some.inj h]
        dsimp only
        omega
      · rw [if_neg hpos] at h
        rcases hc : consume f (reset_refill now
            { st with reset_date := some (st.reset_date.getD (now + st.per)) }).1
            (reset_refill now
              { st with reset_date := some (st.reset_date.getD (now + st.per)) }).2.1 with
          _ | ⟨now2, st2, sl2⟩
        · rw [hc] at h
          simp at h
        · rw [hc] at h
          dsimp only at h
          rw [← Option.some.inj h]
          show 0 ≤ st2.tokens
          refine ih _ _ _ ?_ ?_ hc <;> simpa [reset_refill] using hr

/-- While the token count covers them, successive `consume` calls return with
no sleep, decrementing one token each. -/
theorem consumeN_no_sleep : ∀ (k : Nat) (st : RateBucketState) (now : Int) (fuel : Nat),
    (k : Int) ≤ st.tokens →
    ∃ st2, consumeN k (fuel + 1) now st = some (now, st2, []) ∧
      st2.tokens = st.tokens - k ∧ st2.rate = st.rate := by
  intro k
  induction k with
  | zero =>
      intro st now fuel _
      exact ⟨st, rfl, by simp, rfl⟩
  | succ k ih =>
      intro st now fuel h
      have hpos : 0 < st.tokens := by
        have : ((k : Int) + 1) ≤ st.tokens := by push_cast at h; omega
        omega
      have hnext : ((k : Int)) ≤ st.tokens - 1 := by push_cast at h; omega
      obtain ⟨st2, h2, ht2, hr2⟩ := ih
        { st with tokens := st.tokens - 1,
                  reset_date := some (st.reset_date.getD (now + st.per)) } now fuel hnext
      refine ⟨st2, ?_, ?_, hr2⟩
      · show (match consume (fuel + 1) now st with
          | none => none
          | some (now1, st1, s1) =>
              match consumeN k (fuel + 1) now1 st1 with
              | none => none
              | some (now2, st2, s2) => some (now2, st2, s1 ++ s2)) =
            some (now, st2, [])
        rw [consume_pos fuel now st hpos]
        simp only
        rw [h2]
        rfl
      · rw [ht2]
        push_cast
        omega

/-- From an exhausted bucket with a pending future reset date, `consume`
sleeps until the reset date, refills to the capacity, clears the reset date,
and the recursive call then takes one token (lazily re-initializing the reset
date one window after the wake-up time). -/
theorem consume_exhausted (st : RateBucketState) (now rd : Int)
    (h0 : st.tokens = 0) (hrd : st.reset_date = some rd) (hlt : now < rd) (hr : 0 < st.rate) :
    consume 2 now st =
      some (rd, { tokens := st.rate - 1, rate := st.rate, per := st.per,
                  reset_date := some (rd + st.per) }, [rd - now]) := by
  rw [show (2 : Nat) = 1 + 1 from rfl, consume_succ]
  dsimp only
  rw [hrd]
  simp only [Option.getD_some]
  rw [if_neg (by omega)]
  rw [reset_refill_spec now _ rd rfl hlt]
  dsimp only
  rw [show (1 : Nat) = 0 + 1 from rfl, consume_pos 0 rd _ (by dsimp only; omega)]
  dsimp only
  rfl

/-! ## Claim theorems -/

/-- C1: the claim says the moderator check returns true iff the username
appears in some rank list, and in particular returns true for a roster whose
moderators list holds the username.  The code instead passes the dict values
view to `itertools.chain` as a single iterable, so the membership test
compares the username to the rank lists themselves and is always false: on a
roster whose moderators list contains "alice", the check returns false while
the spec-modelled check returns true. -/
theorem c1_is_mod_code_bug :
    IRCClient_is_mod
      [("moderators", ["alice"]), ("global_mods", []), ("admins", []), ("staff", [])]
      "alice" = false ∧
    spec_is_mod
      [("moderators", ["alice"]), ("global_mods", []), ("admins", []), ("staff", [])]
      "alice" = true ∧
    (∀ (mod_list : List (String × List String)) (u : String),
      IRCClient_is_mod mod_list u = false) :=
  ⟨is_mod_always_false _ _, by decide, is_mod_always_false⟩

/-- C2: for every argument list of at most two tokens (with the configured
default size within the clamp, as the spec's default 4 is), the pyramid
command's output is exactly the rows the claim describes: symbol/size from the
argument rules, effective size `min requested 5`, and row `i` of width `i+1`
for `i < size`, else `2*size-(i+1)`, space-joined. -/
theorem c2_pyramid_process (defaultSymbol : String) (defaultSize : Nat)
    (hsize : defaultSize ≤ 5) (args : List String) (hargs : args.length ≤ 2) :
    Pyramid_process defaultSymbol defaultSize args =
      claim_pyramid defaultSymbol defaultSize args := by
  have hrows : pyramid_rows = claim_rows := rfl
  have hmin : min defaultSize 5 = defaultSize := Nat.min_eq_left hsize
  rcases args with _ | ⟨a, _ | ⟨b, _ | ⟨c, rest⟩⟩⟩
  · simp [Pyramid_process, claim_pyramid, pyramid_resolve, claim_requested, hrows, hmin]
  · by_cases hd : pyIsdigit a
    · simp [Pyramid_process, claim_pyramid, pyramid_resolve, claim_requested, hd, hrows,
        size_threshold_eq_min]
    · simp [Pyramid_process, claim_pyramid, pyramid_resolve, claim_requested, hd, hrows, hmin]
  · by_cases hd : pyIsdigit b
    · simp [Pyramid_process, claim_pyramid, pyramid_resolve, claim_requested, hd, hrows,
        size_threshold_eq_min]
    · simp [Pyramid_process, claim_pyramid, pyramid_resolve, claim_requested, hd, hrows, hmin]
  · simp at hargs

/-- C2 witness: the pyramid for arguments "X 3" with defaults "LUL"/4. -/
theorem c2_pyramid_process_witness :
    Pyramid_process "LUL" 4 ["X", "3"] = claim_pyramid "LUL" 4 ["X", "3"] ∧
    Pyramid_process "LUL" 4 ["X", "3"] = ["X", "X X", "X X X", "X X", "X"] :=
  ⟨c2_pyramid_process "LUL" 4 (by decide) ["X", "3"] (by decide), by decide⟩

/-- C3: one polling cycle with a successful fetch announces exactly the
entries newer than bot start and absent from the cache: when that set is
non-empty exactly one announcement is sent (the formatted name list through
the configured template) and the cache becomes the full fetched list; when it
is empty nothing is sent and the cache is unchanged; a single name stands
alone in the formatting; and a second cycle fetching the identical list
announces nothing. -/
theorem c3_follows_cycle (tmpl : String → String) (t0 : Int) (cache follows : List Follow) :
    (claim_new_follows t0 cache follows ≠ [] →
        listen_cycle tmpl t0 cache (some follows) =
          (follows,
            some ("/me " ++ tmpl (format_follower_list (claim_new_follows t0 cache follows))))) ∧
    (claim_new_follows t0 cache follows = [] →
        listen_cycle tmpl t0 cache (some follows) = (cache, none)) ∧
    (∀ f : Follow, format_follower_list [f] = f.name) ∧
    (listen_cycle tmpl t0 (listen_cycle tmpl t0 cache (some follows)).1 (some follows)).2
        = none := by
  have hself : claim_new_follows t0 follows follows = [] := by
    unfold claim_new_follows
    rw [List.filter_eq_nil_iff]
    intro f hf
    simp [hf]
  have h1 : claim_new_follows t0 cache follows ≠ [] →
      listen_cycle tmpl t0 cache (some follows) =
        (follows,
          some ("/me " ++ tmpl (format_follower_list (claim_new_follows t0 cache follows)))) := by
    intro hne
    rw [listen_cycle_eq, if_neg hne]
  have h2 : claim_new_follows t0 cache follows = [] →
      listen_cycle tmpl t0 cache (some follows) = (cache, none) := by
    intro he
    rw [listen_cycle_eq, if_pos he]
  refine ⟨h1, h2, ?_, ?_⟩
  · intro f
    simp [format_follower_list]
  · by_cases hnf : claim_new_follows t0 cache follows = []
    · rw [h2 hnf, h2 hnf]
    · rw [h1 hnf]
      rw [show (follows,
          some ("/me " ++ tmpl (format_follower_list (claim_new_follows t0 cache follows)))).1
          = follows from rfl]
      rw [listen_cycle_eq, if_pos hself]

/-- C3 witness: one fresh follower after bot start is announced once and the
cache becomes the fetched list. -/
theorem c3_follows_cycle_witness :
    listen_cycle id 0 [] (some [{ name := "A", date := 1 }]) =
      ([{ name := "A", date := 1 }], some "/me A") :=
  ((c3_follows_cycle id 0 [] [{ name := "A", date := 1 }]).1 (by decide)).trans (by decide)

/-- C6: the topic id property returns the value of the first declared slot
whose params entry is present (`none` when all are absent); a `UserFollows`
topic built with only `to_id="42"` exposes "42", and one built with
`from_id="1"` and `to_id="42"` exposes "1", the value of the slot declared
first in `UserFollows.__slots__ = ('from_id', 'to_id')`. -/
theorem c6_topic_id :
    (∀ (slots : List String) (params : List (String × String)),
        (∀ s ∈ slots, dict_get params s = none) → topic_id slots params = none) ∧
    (∀ (slots1 : List String) (s : String) (slots2 : List String)
        (params : List (String × String)) (v : String),
        (∀ x ∈ slots1, dict_get params x = none) → dict_get params s = some v →
        topic_id (slots1 ++ s :: slots2) params = some v) ∧
    topic_id UserFollows_slots (topic_mk_params UserFollows_slots [("to_id", "42")])
        = some "42" ∧
    topic_id UserFollows_slots
        (topic_mk_params UserFollows_slots [("from_id", "1"), ("to_id", "42")]) = some "1" ∧
    UserFollows_slots = ["from_id", "to_id"] := by
  have hnone : ∀ (slots : List String) (params : List (String × String)),
      (∀ s ∈ slots, dict_get params s = none) → topic_id slots params = none := by
    intro slots params h
    have hf : slots.find? (fun slot => (dict_get params slot).isSome) = none := by
      rw [List.find?_eq_none]
      intro x hx
      simp [h x hx]
    simp [topic_id, hf]
  have hfirst : ∀ (slots1 : List String) (s : String) (slots2 : List String)
      (params : List (String × String)) (v : String),
      (∀ x ∈ slots1, dict_get params x = none) → dict_get params s = some v →
      topic_id (slots1 ++ s :: slots2) params = some v := by
    intro slots1 s slots2 params v h1 h2
    induction slots1 with
    | nil =>
        have hp : ((dict_get params s).isSome) = true := by rw [h2]; rfl
        have hf : List.find? (fun slot => (dict_get params slot).isSome) (s :: slots2)
            = some s := List.find?_cons_of_pos _ hp
        simp [topic_id, hf, h2]
    | cons a as ih =>
        have ha : dict_get params a = none := h1 a (List.mem_cons_self _ _)
        have hp : ((dict_get params a).isSome) = false := by rw [ha]; rfl
        have hf : List.find? (fun slot => (dict_get params slot).isSome)
              (a :: (as ++ s :: slots2))
            = List.find? (fun slot => (dict_get params slot).isSome) (as ++ s :: slots2) :=
          List.find?_cons_of_neg _ (by simp [hp])
        have ih1 := ih (fun x hx => h1 x (List.mem_cons_of_mem _ hx))
        simp only [topic_id, List.cons_append, hf] at *
        exact ih1
  exact ⟨hnone, hfirst, by decide, by decide, rfl⟩

/-- C6 witness: the first-non-empty rule applied to a params dict holding only
`to_id`, with `from_id` declared first. -/
theorem c6_topic_id_witness :
    topic_id ["from_id", "to_id"] [("to_id", "42")] = some "42" :=
  c6_topic_id.2.1 ["from_id"] "to_id" [] [("to_id", "42")] "42" (by decide) (by decide)

/-- C7 counterexample: with a cached token whose expiry equals the current
instant, `get_token` issues no request and returns the cached token, because
the code refreshes only when `now > expires_at` — the claim's "a call made
exactly at the cached expiry instant performs a refresh" is false. -/
theorem c7_counterexample :
    (get_token 100 "fresh" 3600 { token := some "cached", expires_at := some 100 }).2.2
        = false ∧
    (get_token 100 "fresh" 3600 { token := some "cached", expires_at := some 100 }).2.1
        = some "cached" :=
  ⟨by decide, by decide⟩

/-- C7 (amended): a token request is issued iff no expiry is cached or the
cached expiry is strictly before `now`; on refresh the returned token is
cached with expiry `now + lifetime` and returned; otherwise the cached token
is returned and the state is unchanged. -/
theorem c7_get_token_refresh (now : Int) (tok : String) (life : Int) (st : TokenState) :
    ((get_token now tok life st).2.2 = true ↔
        st.expires_at = none ∨ ∃ e, st.expires_at = some e ∧ e < now) ∧
    ((get_token now tok life st).2.2 = true →
        get_token now tok life st =
          ({ token := some tok, expires_at := some (now + life) }, some tok, true)) ∧
    ((get_token now tok life st).2.2 = false →
        get_token now tok life st = (st, st.token, false)) := by
  obtain ⟨t, e⟩ := st
  cases e with
  | none => simp [get_token]
  | some e0 => by_cases h : e0 < now <;> simp [get_token, h]

/-- C7 witness: one second past the cached expiry a refresh happens. -/
theorem c7_get_token_refresh_witness :
    get_token 101 "fresh" 3600 { token := some "cached", expires_at := some 100 } =
      ({ token := some "fresh", expires_at := some 3701 }, some "fresh", true) :=
  (c7_get_token_refresh 101 "fresh" 3600 _).2.1 (by decide)

/-- C4: the notification route runs only when the HMAC hex digest of the body
equals the stripped `X-Hub-Signature` header; a matching digest falls through
to duplicate suppression; any mismatch — including an absent header (the
digest is 64 hex characters, never empty) and any body mutation that changes
the digest under an unchanged header — answers 403 with no processing and an
unchanged cache. -/
theorem c4_verify_payload (hmacHex : List Nat → String)
    (hlen : ∀ b, (hmacHex b).length = 64)
    (cache : List (Option String)) (req : WebhookRequest) :
    ((handle_post hmacHex cache req).1.callbackRan = true →
        hmacHex req.body = strip_signature req.x_hub_signature) ∧
    (hmacHex req.body = strip_signature req.x_hub_signature →
        handle_post hmacHex cache req =
          remove_duplicates_step cache req.twitch_notification_id) ∧
    (hmacHex req.body ≠ strip_signature req.x_hub_signature →
        handle_post hmacHex cache req = ({ status := 403, callbackRan := false }, cache)) ∧
    (req.x_hub_signature = none →
        handle_post hmacHex cache req = ({ status := 403, callbackRan := false }, cache)) ∧
    (∀ body2 : List Nat, hmacHex body2 ≠ hmacHex req.body →
        hmacHex req.body = strip_signature req.x_hub_signature →
        handle_post hmacHex cache
            { body := body2, x_hub_signature := req.x_hub_signature,
              twitch_notification_id := req.twitch_notification_id } =
          ({ status := 403, callbackRan := false }, cache)) := by
  have hp : ∀ r : WebhookRequest, handle_post hmacHex cache r =
      if hmacHex r.body == strip_signature r.x_hub_signature then
        remove_duplicates_step cache r.twitch_notification_id
      else ({ status := 403, callbackRan := false }, cache) := fun _ => rfl
  have hnone : req.x_hub_signature = none →
      hmacHex req.body ≠ strip_signature req.x_hub_signature := by
    intro hn he
    have h64 := hlen req.body
    rw [he, hn] at h64
    simp [strip_signature] at h64
  refine ⟨?_, ?_, ?_, ?_, ?_⟩
  · intro hc
    by_contra hne
    rw [hp, if_neg (by simp [hne])] at hc
    simp at hc
  · intro he
    rw [hp, if_pos (by simp [he])]
  · intro hne
    rw [hp, if_neg (by simp [hne])]
  · intro hn
    rw [hp, if_neg (by simp [hnone hn])]
  · intro b2 hne he
    have hne2 : hmacHex b2 ≠ strip_signature req.x_hub_signature := fun hh => hne (hh.trans he.symm)
    rw [hp, if_neg (by simp [hne2])]

/-- C4 witness: a POST with no signature header is rejected with status 403
and no callback invocation. -/
theorem c4_verify_payload_witness :
    handle_post
        (fun _ => "aaaaaaaaaaaaaaaaaaaaaaaaaaaaaaaaaaaaaaaaaaaaaaaaaaaaaaaaaaaaaaaa")
        []
        { body := [0], x_hub_signature := none, twitch_notification_id := none } =
      ({ status := 403, callbackRan := false }, []) :=
  (c4_verify_payload _ (fun _ => by decide) [] _).2.2.2.1 rfl

/-- C5: a notification id already in the dedup cache answers 204 without
invoking the callback and leaves the cache unchanged; a fresh id is processed
(202, callback) and appended — kept whole below 50 entries, evicting the
oldest entry at 50; and after 50 distinct fresh ids any previously processed
id has been evicted, so repeating it runs the callback again. -/
theorem c5_remove_duplicates :
    (∀ (cache : List (Option String)) (nid : Option String), nid ∈ cache →
        remove_duplicates_step cache nid = ({ status := 204, callbackRan := false }, cache)) ∧
    (∀ (cache : List (Option String)) (nid : Option String), ¬ nid ∈ cache →
        remove_duplicates_step cache nid =
          ({ status := 202, callbackRan := true }, append_max50 cache nid)) ∧
    (∀ (cache : List (Option String)) (nid : Option String), cache.length < 50 →
        append_max50 cache nid = cache ++ [nid]) ∧
    (∀ (cache : List (Option String)) (nid : Option String), cache.length = 50 →
        append_max50 cache nid = cache.drop 1 ++ [nid]) ∧
    (∀ (cache : List (Option String)) (a : Option String) (ids : List (Option String)),
        cache.length ≤ 50 → ids.length = 50 → ids.Nodup →
        (∀ i ∈ ids, ¬ i ∈ cache) → ¬ a ∈ ids →
        dedup_run cache ids = ids ∧
        (remove_duplicates_step (dedup_run cache ids) a).1.callbackRan = true) := by
  have h202 : ∀ (cache : List (Option String)) (nid : Option String), ¬ nid ∈ cache →
      remove_duplicates_step cache nid =
        ({ status := 202, callbackRan := true }, append_max50 cache nid) := by
    intro cache nid h
    unfold remove_duplicates_step
    rw [if_neg (by simp [h])]
  refine ⟨?_, h202, ?_, ?_, ?_⟩
  · intro cache nid h
    unfold remove_duplicates_step
    rw [if_pos (by simp [h])]
  · intro cache nid h
    have hz : (cache ++ [nid]).length - 50 = 0 := by
      simp only [List.length_append, List.length_cons, List.length_nil]
      omega
    show (cache ++ [nid]).drop ((cache ++ [nid]).length - 50) = cache ++ [nid]
    rw [hz, List.drop_zero]
  · intro cache nid h
    have ho : (cache ++ [nid]).length - 50 = 1 := by
      simp only [List.length_append, List.length_cons, List.length_nil]
      omega
    show (cache ++ [nid]).drop ((cache ++ [nid]).length - 50) = cache.drop 1 ++ [nid]
    rw [ho, List.drop_append_eq_append_drop]
    have h1 : 1 - cache.length = 0 := by omega
    rw [h1, List.drop_zero]
  · intro cache a ids hclen hilen hnodup hfresh ha
    have hrun : dedup_run cache ids = ids := by
      rw [dedup_run_fresh ids cache hclen hfresh hnodup]
      unfold lastN
      have hd : (cache ++ ids).length - 50 = cache.length := by
        simp only [List.length_append, hilen]
        omega
      rw [hd, List.drop_left]
    refine ⟨hrun, ?_⟩
    rw [hrun, h202 ids a ha]

/-- C5 witness: an id already among the cached entries answers 204 and the
callback does not run. -/
theorem c5_remove_duplicates_witness :
    remove_duplicates_step [some "abc"] (some "abc") =
      ({ status := 204, callbackRan := false }, [some "abc"]) :=
  c5_remove_duplicates.1 [some "abc"] (some "abc") (by decide)

/-- C10: a header-less POST with a valid signature is processed once and the
`none` marker is appended to the dedup cache; while `none` remains cached,
every further header-less POST with a valid signature — whatever its body —
answers 204 and never invokes the callback. -/
theorem c10_missing_id_dedup (hmacHex : List Nat → String) (cache : List (Option String))
    (req : WebhookRequest) (hid : req.twitch_notification_id = none)
    (hsig : hmacHex req.body = strip_signature req.x_hub_signature) :
    (¬ none ∈ cache →
        handle_post hmacHex cache req =
          ({ status := 202, callbackRan := true }, append_max50 cache none) ∧
        none ∈ append_max50 cache none) ∧
    (none ∈ cache →
        handle_post hmacHex cache req = ({ status := 204, callbackRan := false }, cache)) := by
  have hp : handle_post hmacHex cache req = remove_duplicates_step cache none := by
    unfold handle_post
    rw [if_pos (by simp [hsig]), hid]
  constructor
  · intro hn
    refine ⟨?_, mem_append_max50_self cache none⟩
    rw [hp]
    unfold remove_duplicates_step
    rw [if_neg (by simp [hn])]
  · intro hn
    rw [hp]
    unfold remove_duplicates_step
    rw [if_pos (by simp [hn])]

/-- C10 witness: the first header-less POST is processed and caches the
missing-id marker; a later header-less POST with a different body is then
suppressed with 204. -/
theorem c10_missing_id_dedup_witness :
    handle_post (fun _ => "d") []
        { body := [1], x_hub_signature := some "sha256=d", twitch_notification_id := none } =
      ({ status := 202, callbackRan := true }, [none]) ∧
    handle_post (fun _ => "d") [none]
        { body := [2], x_hub_signature := some "sha256=d", twitch_notification_id := none } =
      ({ status := 204, callbackRan := false }, [none]) := by
  constructor
  · have h := (c10_missing_id_dedup (fun _ => "d") []
        { body := [1], x_hub_signature := some "sha256=d", twitch_notification_id := none }
        rfl (by decide)).1 (by decide)
    exact h.1.trans (by decide)
  · exact (c10_missing_id_dedup (fun _ => "d") [none]
        { body := [2], x_hub_signature := some "sha256=d", twitch_notification_id := none }
        rfl (by decide)).2 (by decide)

/-- C8: evaluation of the subscribe flow.  A single topic whose challenge
never arrives yields the gathered result `false` (a failed subscription) and
an empty pending table — yet the failure warning is NOT logged, because the
code filters the coroutine objects stored in the tasks dict (always truthy)
instead of the gathered results; indeed the warning is never logged for any
input.  Success per topic is exactly "signal fired within 10 seconds", and the
pending entry is removed whether or not the challenge arrived. -/
theorem c8_subscribe_eval :
    subscribe_all [] [("topicuri", none)] = ([false], [], false) ∧
    (∀ (pending : List String) (uri : String) (arrival : Option Int),
        (subscribe_one pending uri arrival).1 = challenge_fired arrival ∧
        ((subscribe_one pending uri arrival).2.contains uri) = false) ∧
    (∀ (pending : List String) (topics : List (String × Option Int)),
        (subscribe_all pending topics).2.2 = false) := by
  refine ⟨by decide, ?_, ?_⟩
  · intro pending uri arrival
    exact ⟨rfl, remove_key_contains_false _ _⟩
  · intro pending topics
    show (!(topics.length == (topics.map (fun _ => true)).count true)) = false
    simp [List.map_const']

/-- C9: the rate bucket's token count never becomes negative; with tokens
remaining `consume` decrements and returns immediately with no sleep (lazily
initializing the window's reset date at first use), so the first `r` calls on
a fresh bucket of capacity `r` do not sleep; and once the tokens are
exhausted, the next call sleeps until the reset date, resets the count to the
capacity, clears the reset date, and the recursive consume hands the caller a
token. -/
theorem c9_rate_bucket :
    (∀ (fuel : Nat) (now : Int) (st : RateBucketState)
        (res : Int × RateBucketState × List Int),
        0 ≤ st.tokens → 0 ≤ st.rate → consume fuel now st = some res →
        0 ≤ res.2.1.tokens) ∧
    (∀ (fuel : Nat) (now : Int) (st : RateBucketState), 0 < st.tokens →
        consume (fuel + 1) now st =
          some (now,
            { st with tokens := st.tokens - 1,
                      reset_date := some (st.reset_date.getD (now + st.per)) }, [])) ∧
    (∀ (k : Nat) (rate per now : Int) (fuel : Nat), (k : Int) ≤ rate →
        ∃ st2, consumeN k (fuel + 1) now (fresh_bucket rate per) = some (now, st2, []) ∧
          st2.tokens = rate - k) ∧
    (∀ (st : RateBucketState) (now rd : Int), st.tokens = 0 → st.reset_date = some rd →
        now < rd → 0 < st.rate →
        consume 2 now st =
          some (rd,
            { tokens := st.rate - 1, rate := st.rate, per := st.per,
              reset_date := some (rd + st.per) }, [rd - now])) := by
  refine ⟨consume_tokens_nonneg, consume_pos, ?_, consume_exhausted⟩
  intro k rate per now fuel h
  obtain ⟨st2, h1, h2, _⟩ := consumeN_no_sleep k (fresh_bucket rate per) now fuel
    (by simpa [fresh_bucket] using h)
  exact ⟨st2, h1, by simpa [fresh_bucket] using h2⟩

/-- C9 witness: a bucket of capacity 2 per 60 seconds, exhausted at time 0
with reset date 60, sleeps 60 seconds on the third consume, refills and hands
out a token, leaving one token and the next reset date at 120. -/
theorem c9_rate_bucket_witness :
    consume 2 0 { tokens := 0, rate := 2, per := 60, reset_date := some 60 } =
      some (60, { tokens := 1, rate := 2, per := 60, reset_date := some 120 }, [60]) := by
  have h := c9_rate_bucket.2.2.2 { tokens := 0, rate := 2, per := 60, reset_date := some 60 }
    0 60 rfl rfl (by decide) (by decide)
  exact h.trans (by decide)

end TwitchBot
